import Mathlib

set_option maxHeartbeats 1000000

/-!
Shallow embedding of the playcanvas-rest-api-tools one-page patches:
`src/engine-patches/one-page-draco-decoder.js` (Draco inline loader: global
initialization state, fetch/XHR/Blob interception, container-handler shim)
and the XHR patch file (`pc.Http.prototype.get` replaced by a data-URL
transport decoder).  JavaScript strings are modelled as `List Char`,
machine integers do not occur; fallible browser primitives (`atob`,
`JSON.parse`) return `Option`.
-/

/-- Model of the JavaScript test `s.indexOf(pat) !== -1`: `pat` occurs as a
contiguous substring of `s`. -/
def jsIncludes : List Char → List Char → Bool
  | [], pat => pat.isPrefixOf []
  | c :: rest, pat => pat.isPrefixOf (c :: rest) || jsIncludes rest pat

/-- Codec-file interception rule shared by every patched pathway: the
identifier contains one of the fixed fragments `draco.wasm.wasm`,
`draco.wasm.js`, `draco.js` (source lines 257-260, 314-317, 19-21). -/
def isDracoUrl (url : List Char) : Bool :=
  jsIncludes url ("draco.wasm.wasm").data || jsIncludes url ("draco.wasm.js").data ||
    jsIncludes url ("draco.js").data

/-! Browser primitive `window.atob`, WHATWG forgiving-base64 decode. -/

/-- ASCII whitespace removed by forgiving-base64 before decoding. -/
def isB64Ws (c : Char) : Bool :=
  c = ' ' || c = '\t' || c = '\n' || c = '\x0c' || c = '\r'

/-- The base64 alphabet in index order. -/
def base64Alphabet : List Char :=
  ("ABCDEFGHIJKLMNOPQRSTUVWXYZabcdefghijklmnopqrstuvwxyz0123456789+/").data

/-- Character for a six-bit group (encoding side). -/
def sextetChar (n : Nat) : Char := base64Alphabet.getD n 'A'

/-- Index of a character in the base64 alphabet, `none` for a foreign one. -/
def base64Index (c : Char) : Option Nat := base64Alphabet.findIdx? (fun a => a = c)

/-- Forgiving-base64 step: when the input length is a multiple of four,
drop one or two trailing padding characters. -/
def stripPad (cs : List Char) : List Char :=
  if cs.length % 4 = 0 then
    if cs.reverse.take 2 = ['=', '='] then (cs.reverse.drop 2).reverse
    else if cs.reverse.take 1 = ['='] then (cs.reverse.drop 1).reverse
    else cs
  else cs

/-- Recombine six-bit groups into bytes; a single leftover sextet is a
length error (input length was 1 mod 4). -/
def decodeSextets : List Nat → Option (List Nat)
  | [] => some []
  | [_] => none
  | [a, b] => some [a * 4 + b / 16]
  | [a, b, c] => some [a * 4 + b / 16, b % 16 * 16 + c / 4]
  | a :: b :: c :: d :: rest =>
    (decodeSextets rest).map
      (fun t => (a * 4 + b / 16) :: (b % 16 * 16 + c / 4) :: (c % 4 * 64 + d) :: t)

/-- Look up every character in the alphabet; any foreign character fails
the whole decode. -/
def base64IndexAll : List Char → Option (List Nat)
  | [] => some []
  | c :: rest =>
    match base64Index c, base64IndexAll rest with
    | some i, some t => some (i :: t)
    | _, _ => none

/-- Model of the browser primitive `window.atob`: returns the byte values of
the decoded binary string; `none` models the thrown `InvalidCharacterError`. -/
def atobBytes (s : List Char) : Option (List Nat) :=
  match base64IndexAll (stripPad (s.filter (fun c => !isB64Ws c))) with
  | none => none
  | some sextets => decodeSextets sextets

/-- Standard base64 encoding with padding (the encoding side of the data-URL
transport, used to state the round-trip property). -/
def base64EncodeChars : List Nat → List Char
  | [] => []
  | [a] => [sextetChar (a / 4), sextetChar (a % 4 * 16), '=', '=']
  | [a, b] =>
    [sextetChar (a / 4), sextetChar (a % 4 * 16 + b / 16), sextetChar (b % 16 * 4), '=']
  | a :: b :: c :: rest =>
    sextetChar (a / 4) :: sextetChar (a % 4 * 16 + b / 16) ::
      sextetChar (b % 16 * 4 + c / 64) :: sextetChar (c % 64) :: base64EncodeChars rest

/-! Browser primitive `JSON.parse`, modelled on the fragment these assets
use: objects, arrays, strings with one-character escapes, integral numbers,
booleans and null.  A fractional or exponent part and `\u` escapes are not
modelled (the parser fails there rather than answering wrongly). -/

/-- Structured JSON value. -/
inductive Json where
  | null
  | bool (b : Bool)
  | num (n : Int)
  | str (s : List Char)
  | arr (items : List Json)
  | obj (fields : List (List Char × Json))

/-- JSON insignificant whitespace. -/
def skipWs (cs : List Char) : List Char :=
  cs.dropWhile (fun c => c = ' ' || c = '\t' || c = '\n' || c = '\r')

/-- Decimal digit value. -/
def digitVal (c : Char) : Option Nat :=
  if '0' ≤ c ∧ c ≤ '9' then some (c.toNat - 48) else none

/-- Accumulate further digits of a number token. -/
def parseDigitsAux : List Char → Nat → Nat × List Char
  | [], acc => (acc, [])
  | c :: rest, acc =>
    match digitVal c with
    | some d => parseDigitsAux rest (acc * 10 + d)
    | none => (acc, c :: rest)

/-- Parse one or more digits. -/
def parseNatTok : List Char → Option (Nat × List Char)
  | [] => none
  | c :: rest =>
    match digitVal c with
    | some d => some (parseDigitsAux rest d)
    | none => none

/-- Parse an integral JSON number; refuses fraction/exponent forms. -/
def parseIntTok (cs : List Char) : Option (Int × List Char) :=
  let p := match cs with
    | '-' :: r => (true, r)
    | _ => (false, cs)
  match parseNatTok p.2 with
  | none => none
  | some (n, rest) =>
    match rest with
    | '.' :: _ => none
    | 'e' :: _ => none
    | 'E' :: _ => none
    | _ => some (if p.1 then -(n : Int) else (n : Int), rest)

/-- One-character JSON string escapes. -/
def escChar (e : Char) : Option Char :=
  if e = '"' then some '"'
  else if e = '\\' then some '\\'
  else if e = '/' then some '/'
  else if e = 'n' then some '\n'
  else if e = 't' then some '\t'
  else if e = 'r' then some '\r'
  else if e = 'b' then some '\x08'
  else if e = 'f' then some '\x0c'
  else none

/-- Body of a JSON string after the opening quote. -/
def parseStringBody : Nat → List Char → Option (List Char × List Char)
  | 0, _ => none
  | _ + 1, [] => none
  | fuel + 1, c :: rest =>
    if c = '"' then some ([], rest)
    else if c = '\\' then
      match rest with
      | [] => none
      | e :: rest2 =>
        match escChar e with
        | some ec => (parseStringBody fuel rest2).map (fun p => (ec :: p.1, p.2))
        | none => none
    else (parseStringBody fuel rest).map (fun p => (c :: p.1, p.2))

mutual

/-- Parse one JSON value. -/
def parseVal : Nat → List Char → Option (Json × List Char)
  | 0, _ => none
  | fuel + 1, cs =>
    match skipWs cs with
    | [] => none
    | c :: rest =>
      if c = '\x7b' then
        match skipWs rest with
        | '\x7d' :: rest2 => some (Json.obj [], rest2)
        | _ => (parseObjFields fuel rest).map (fun p => (Json.obj p.1, p.2))
      else if c = '[' then
        match skipWs rest with
        | ']' :: rest2 => some (Json.arr [], rest2)
        | _ => (parseArrItems fuel rest).map (fun p => (Json.arr p.1, p.2))
      else if c = '"' then
        (parseStringBody (rest.length + 1) rest).map (fun p => (Json.str p.1, p.2))
      else if c = 't' then
        match rest with
        | 'r' :: 'u' :: 'e' :: rest2 => some (Json.bool true, rest2)
        | _ => none
      else if c = 'f' then
        match rest with
        | 'a' :: 'l' :: 's' :: 'e' :: rest2 => some (Json.bool false, rest2)
        | _ => none
      else if c = 'n' then
        match rest with
        | 'u' :: 'l' :: 'l' :: rest2 => some (Json.null, rest2)
        | _ => none
      else
        (parseIntTok (c :: rest)).map (fun p => (Json.num p.1, p.2))

/-- Parse the fields of a JSON object after the opening brace (at least one). -/
def parseObjFields : Nat → List Char → Option (List (List Char × Json) × List Char)
  | 0, _ => none
  | fuel + 1, cs =>
    match skipWs cs with
    | '"' :: rest =>
      match parseStringBody (rest.length + 1) rest with
      | none => none
      | some (key, rest2) =>
        match skipWs rest2 with
        | ':' :: rest3 =>
          match parseVal fuel rest3 with
          | none => none
          | some (v, rest4) =>
            match skipWs rest4 with
            | ',' :: rest5 =>
              (parseObjFields fuel rest5).map (fun p => ((key, v) :: p.1, p.2))
            | '\x7d' :: rest5 => some ([(key, v)], rest5)
            | _ => none
        | _ => none
    | _ => none

/-- Parse the items of a JSON array after the opening bracket (at least one). -/
def parseArrItems : Nat → List Char → Option (List Json × List Char)
  | 0, _ => none
  | fuel + 1, cs =>
    match parseVal fuel cs with
    | none => none
    | some (v, rest) =>
      match skipWs rest with
      | ',' :: rest2 => (parseArrItems fuel rest2).map (fun p => (v :: p.1, p.2))
      | ']' :: rest2 => some ([v], rest2)
      | _ => none

end

/-- Model of the browser primitive `JSON.parse`; `none` models the thrown
`SyntaxError`. -/
def jsonParse (cs : List Char) : Option Json :=
  match parseVal (cs.length + 1) cs with
  | some (j, rest) => if skipWs rest = [] then some j else none
  | none => none

/-! The data-URL transport decoder: `pc.Http.prototype.get` from the XHR
patch file (src/unnamed/part_000, lines 10-87). -/

/-- Value delivered through the get callback's data argument. -/
inductive HttpData where
  | str (s : List Char)
  | json (j : Json)
  | buffer (bytes : List Nat)
  | blob (bytes : List Nat) (mime : List Char)
  | null

/-- Observable outcome of one call to the patched get: either the callback
is invoked with (error, data), or an exception escapes to the caller. -/
inductive GetResult where
  | callback (err : Option (List Char)) (data : HttpData)
  | thrown (msg : List Char)

/-- The only option the patched get consults: whether
`options.responseType === pc.Http.ResponseType.JSON`. -/
structure GetOptions where
  responseTypeJson : Bool

/-- The empty options object `{}`. -/
def emptyOptions : GetOptions := ⟨false⟩

/-- JavaScript `url.indexOf(',')` followed by the substring/slice pair:
splits at the first comma, `none` when there is no comma. -/
def splitAtComma : List Char → Option (List Char × List Char)
  | [] => none
  | c :: rest =>
    if c = ',' then some ([], rest)
    else (splitAtComma rest).map (fun p => (c :: p.1, p.2))

/-- Binary string to characters (`atob` hands back a Latin-1 string). -/
def charsOfBytes (bs : List Nat) : List Char := bs.map (fun b => Char.ofNat b)

/-- Shallow embedding of the patched `pc.Http.prototype.get`.  Structure of
the source: draco-file requests are answered with an empty string; the url
must then start with `data:` and contain a comma (each failure is reported
through the callback's error argument); the payload after the comma is
base64-decoded with `atob` (which throws on a non-base64 payload); the
decoded data is JSON-parsed, kept as text, wrapped in a typed blob for
images, or returned as a raw byte buffer.  The source's `isWasm`/`isGlb`
flags do not change the produced value and are omitted. -/
def httpGet (url : List Char) (options : GetOptions) : GetResult :=
  if isDracoUrl url then .callback none (.str [])
  else if !(("data:").data.isPrefixOf url) then
    .callback (some ("Invalid data URL format").data) .null
  else
    match splitAtComma url with
    | none => .callback (some ("Invalid data URL").data) .null
    | some (beforeComma, base64) =>
      let mimeInfo := beforeComma.drop 5
      match atobBytes base64 with
      | none => .thrown ("InvalidCharacterError").data
      | some bytes =>
        let mimeType := mimeInfo.takeWhile (fun c => c ≠ ';')
        let dUrlIsJson :=
          ("data:application/json").data.isPrefixOf url || options.responseTypeJson
        let dUrlIsText := ("data:text/plain").data.isPrefixOf url ||
          ("data:text/javascript").data.isPrefixOf url
        let dUrlIsImage := ("data:image/").data.isPrefixOf url
        if dUrlIsJson then
          match jsonParse (charsOfBytes bytes) with
          | none => .thrown ("SyntaxError").data
          | some j => .callback none (.json j)
        else if dUrlIsText then .callback none (.str (charsOfBytes bytes))
        else if dUrlIsImage then .callback none (.blob bytes mimeType)
        else .callback none (.buffer bytes)

/-- The data-URL transport format of spec section 6: `data:` scheme and a
mandatory comma separating metadata from payload (exactly the two
validations the patched get performs). -/
def isWellFormedDataURL (url : List Char) : Bool :=
  ("data:").data.isPrefixOf url && url.contains ','

/-! The transport interception layer of the Draco patch: embedded resource
registry, patched `window.fetch`, patched `XMLHttpRequest.prototype.open`
and `send`, and the patched `window.Blob` worker bootstrap injector. -/

/-- The embedded-resource globals the interception code consults:
`__DRACO_WASM_BLOB_URL__`, `__DRACO_WASM_BINARY__`,
`__DRACO_DECODER_BLOB_URL__`, `__DRACO_DECODER_CODE__`. -/
structure DracoEnv where
  wasmBlobUrl : Option (List Char)
  wasmBinary : Option (List Nat)
  decoderBlobUrl : Option (List Char)
  decoderCode : Option (List Char)
deriving DecidableEq

/-- First argument of `fetch`: a string url or a non-string request object
(the patch only inspects string urls). -/
inductive UrlArg where
  | str (s : List Char)
  | other (o : Nat)
deriving DecidableEq

/-- Observable action of one call to the patched `window.fetch`. -/
inductive FetchAction where
  | delegate (url : UrlArg) (rest : List Nat)
  | redirect (blobUrl : List Char)
  | syntheticWasm (bytes : List Nat)
  | syntheticJs (code : List Char)
  | rejectWith (msg : List Char)
deriving DecidableEq

/-- Shallow embedding of the patched `window.fetch` (source lines 254-306).
`rest` stands for the remaining elements of `arguments`, forwarded verbatim
on the pass-through path. -/
def patchedFetch (env : DracoEnv) (url : UrlArg) (rest : List Nat) : FetchAction :=
  match url with
  | .other o => .delegate (.other o) rest
  | .str u =>
    if isDracoUrl u then
      if jsIncludes u ("draco.wasm.wasm").data || jsIncludes u ("draco_decoder.wasm").data then
        match env.wasmBlobUrl with
        | some b => .redirect b
        | none =>
          match env.wasmBinary with
          | some bytes => .syntheticWasm bytes
          | none => .rejectWith ("Draco WASM not embedded").data
      else if jsIncludes u ("draco.wasm.js").data || jsIncludes u ("draco.js").data then
        match env.decoderBlobUrl with
        | some b => .redirect b
        | none =>
          match env.decoderCode with
          | some code => .syntheticJs code
          | none => .rejectWith ("Draco decoder not embedded").data
      else .rejectWith ("Unknown Draco file").data
    else .delegate (.str u) rest

/-- Per-instance observable state of an `XMLHttpRequest` under the patch:
the `__dracoBlocked` flag, the calls delegated to the original `open`,
the number of calls delegated to the original `send` (real network
requests), and the number of asynchronous error triggers scheduled by a
suppressed send (each invokes the caller's `onerror` when one is set). -/
structure XHRState where
  dracoBlocked : Bool
  origOpenCalls : List (List Char × List Char)
  origSendCalls : Nat
  scheduledErrors : Nat
deriving DecidableEq

/-- A fresh `XMLHttpRequest` instance (`__dracoBlocked` undefined). -/
def initialXHR : XHRState := ⟨false, [], 0, 0⟩

/-- Shallow embedding of the patched `XMLHttpRequest.prototype.open`
(source lines 312-323): a matching url sets the blocking flag, and the
original open is always invoked with the original arguments. -/
def xhrOpen (st : XHRState) (method url : List Char) : XHRState :=
  let st1 := if isDracoUrl url then { st with dracoBlocked := true } else st
  { st1 with origOpenCalls := st1.origOpenCalls ++ [(method, url)] }

/-- Shallow embedding of the patched `XMLHttpRequest.prototype.send`
(source lines 325-338): a blocked instance schedules an asynchronous error
trigger and returns without invoking the original send; otherwise the
original send runs. -/
def xhrSend (st : XHRState) : XHRState :=
  if st.dracoBlocked then { st with scheduledErrors := st.scheduledErrors + 1 }
  else { st with origSendCalls := st.origSendCalls + 1 }

/-- One interaction with an `XMLHttpRequest` instance. -/
inductive XHROp where
  | opn (method url : List Char)
  | send
deriving DecidableEq

/-- Apply one interaction. -/
def applyXHROp (st : XHRState) : XHROp → XHRState
  | .opn method url => xhrOpen st method url
  | .send => xhrSend st

/-- Run a sequence of interactions on an instance. -/
def runXHR (st : XHRState) : List XHROp → XHRState
  | [] => st
  | op :: rest => runXHR (applyXHROp st op) rest

/-- Number of send interactions in a sequence. -/
def countSends : List XHROp → Nat
  | [] => 0
  | XHROp.send :: rest => countSends rest + 1
  | _ :: rest => countSends rest

/-- One element of the `parts` array handed to the `Blob` constructor. -/
inductive BlobPart where
  | str (s : List Char)
  | bin (bytes : List Nat)
deriving DecidableEq

/-- Locate-file shim injected ahead of the decoder glue in a worker script
(source lines 174-184), with the wasm blob url spliced in. -/
def locateFileShim (blobUrl : List Char) : List Char :=
  ("// Module config for WASM loading\nvar Module = Module || \x7b\x7d;\nModule.locateFile = function(path) \x7b\n  if (path.indexOf(\"draco\") !== -1 || path.indexOf(\".wasm\") !== -1) \x7b\n    return \"").data ++
    blobUrl ++ ("\";\n  \x7d\n  return path;\n\x7d;\n\n").data

/-- Decoder glue segment injected after the shim (source lines 187-197):
the embedded decoder code wrapped so the module is republished on the
worker's global scope. -/
def glueSegment (decoderCode : List Char) : List Char :=
  ("// Embedded Draco Decoder Module\n(function() \x7b\n").data ++ decoderCode ++
    ("\n// Ensure DracoDecoderModule is accessible globally in worker\nif (typeof DracoDecoderModule !== \"undefined\") \x7b\n  self.DracoDecoderModule = DracoDecoderModule;\n\x7d\n\x7d)();\n\n").data

/-- Header preceding the untouched original worker code (source line 200). -/
def originalHeader : List Char := ("// Original Worker Code\n").data

/-- Full text injected in place of a recognized worker script (source lines
171-204): optional locate-file shim, optional glue segment, then the
original code, purely by string concatenation. -/
def injectedWorkerCode (env : DracoEnv) (code : List Char) : List Char :=
  (match env.wasmBlobUrl with
   | some u => locateFileShim u
   | none => []) ++
  (match env.decoderCode with
   | some d => glueSegment d
   | none => []) ++ originalHeader ++ code

/-- Shallow embedding of the patched `window.Blob` constructor (source
lines 161-210): when the options type is `application/javascript` and the
first part is a string containing `DracoDecoderModule`, the parts array is
replaced by the single injected script; otherwise the parts pass through
unchanged to the original constructor. -/
def patchedBlob (env : DracoEnv) (parts : List BlobPart) (optType : Option (List Char)) :
    List BlobPart :=
  match optType, parts with
  | some t, BlobPart.str code :: _ =>
    if t = ("application/javascript").data && jsIncludes code ("DracoDecoderModule").data then
      [BlobPart.str (injectedWorkerCode env code)]
    else parts
  | _, _ => parts

/-! The decoder initialization controller: `window.__DRACO_DECODER_STATE__`
plus `window.initDracoDecoder` (source lines 12-19 and 82-130), the
then-handler of the factory promise (lines 104-115), and the patched
`pc.ContainerHandler.prototype.open` shim (lines 408-424).  Promises are
identified by allocation order; the two well-known global slots are
tracked explicitly. -/

/-- Value held by the factory slot `window.DracoDecoderModule`: the factory
or an initialized module instance. -/
inductive GlobalVal where
  | factory
  | inst (m : Nat)
deriving DecidableEq

/-- Global state: `__DRACO_DECODER_STATE__` fields (`initPromise`,
`isReady`, `decoderModule`), the two window slots, a fresh-promise counter,
and an instrumentation counter of started initializations. -/
structure DracoSt where
  nextId : Nat
  initPromise : Option Nat
  isReady : Bool
  decoderModule : Option Nat
  factoryStarts : Nat
  windowFactorySlot : GlobalVal
  windowInstanceSlot : Option Nat
deriving DecidableEq

/-- State at patch load: no promise, not ready, factory published at
`window.DracoDecoderModule` (line 72). -/
def initialDracoState : DracoSt := ⟨0, none, false, none, 0, .factory, none⟩

/-- Shallow embedding of one call to `window.initDracoDecoder` (lines
82-130): an existing promise is returned as is; otherwise a fresh promise
is created, stored in `state.initPromise`, and the initialization is
started.  Returns the new state and the returned promise's identity. -/
def initDracoDecoder (st : DracoSt) : DracoSt × Nat :=
  match st.initPromise with
  | some p => (st, p)
  | none =>
    ({ st with
        nextId := st.nextId + 1
        initPromise := some st.nextId
        factoryStarts := st.factoryStarts + 1 }, st.nextId)

/-- Shallow embedding of the then-handler of the factory promise inside
`initDracoDecoder` (lines 104-115): stores the module, sets the ready
flag, publishes the instance at `window.__DRACO_INITIALIZED_MODULE__`,
and resolves the initialization promise.  It runs at most once, and only
after an initialization was started. -/
def dracoInitResolve (st : DracoSt) (m : Nat) : DracoSt :=
  if st.initPromise.isSome && !st.isReady then
    { st with isReady := true, decoderModule := some m, windowInstanceSlot := some m }
  else st

/-- Shallow embedding of the patched `pc.ContainerHandler.prototype.open`
(lines 411-423): before delegating, when the decoder is ready, writes the
initialized module into `window.DracoDecoderModule`. -/
def containerHandlerOpen (st : DracoSt) : DracoSt :=
  match st.decoderModule with
  | some m => if st.isReady then { st with windowFactorySlot := .inst m } else st
  | none => st

/-- One event of the initialization controller's environment. -/
inductive DEvent where
  | call
  | resolveOk (m : Nat)
  | containerOpen
deriving DecidableEq

/-- Apply one event to the global state. -/
def applyDEvent (st : DracoSt) : DEvent → DracoSt
  | .call => (initDracoDecoder st).1
  | .resolveOk m => dracoInitResolve st m
  | .containerOpen => containerHandlerOpen st

/-- Run a sequence of events. -/
def runD (st : DracoSt) : List DEvent → DracoSt
  | [] => st
  | e :: rest => runD (applyDEvent st e) rest

/-- The promise identities handed back by the `call` events of a sequence,
in order. -/
def callReturns (st : DracoSt) : List DEvent → List Nat
  | [] => []
  | DEvent.call :: rest =>
    (initDracoDecoder st).2 :: callReturns ((initDracoDecoder st).1) rest
  | DEvent.resolveOk m :: rest => callReturns (dracoInitResolve st m) rest
  | DEvent.containerOpen :: rest => callReturns (containerHandlerOpen st) rest

/-- Number of `call` events in a sequence. -/
def countCalls : List DEvent → Nat
  | [] => 0
  | DEvent.call :: rest => countCalls rest + 1
  | _ :: rest => countCalls rest

/-! Settlement analysis of the initialization promise (claim about error
propagation).  The Emscripten factory itself is an external collaborator;
its contract is modelled from the spec below. -/

/-- A decoder module value: a WASM instance produced by the factory, or
the plain configuration object of the ASM.js fallback branch. -/
inductive ModuleVal where
  | wasmInstance (i : Nat)
  | configObject
deriving DecidableEq

/-- Eventual settlement of a promise. -/
inductive PromiseOutcome where
  | resolved (m : ModuleVal)
  | rejected (e : List Char)
  | pending
deriving DecidableEq

/-- Outcome of the host primitive `WebAssembly.instantiate` on the embedded
bytes: a fulfilled instance or a rejection error. -/
inductive WasmResult where
  | ok (i : Nat)
  | err (e : List Char)
deriving DecidableEq

/-- Environment of one initialization attempt: the two typeof tests of
line 95 and line 103, whether a wasm binary is embedded, and the outcome
the host's `WebAssembly.instantiate` produces on those bytes. -/
structure InitEnv where
  localFactoryIsFunction : Bool
  windowModuleIsObject : Bool
  wasmBinaryPresent : Bool
  wasmInstantiation : WasmResult
deriving DecidableEq

/-- Observable effect of `DracoDecoderModule.instantiateWasm` (source lines
49-69): with no binary it returns at once without invoking any callback;
otherwise it instantiates the bytes and, on success, invokes the success
callback — on rejection the catch handler only logs the error and invokes
no callback at all. -/
inductive InstantiateWasmEffect where
  | successCalled (i : Nat)
  | errorLoggedOnly (e : List Char)
  | noBinaryAvailable
deriving DecidableEq

/-- Shallow embedding of `DracoDecoderModule.instantiateWasm`. -/
def instantiateWasm (env : InitEnv) : InstantiateWasmEffect :=
  if !env.wasmBinaryPresent then .noBinaryAvailable
  else
    match env.wasmInstantiation with
    | .ok i => .successCalled i
    | .err e => .errorLoggedOnly e

/-- Modelled from the spec: the codec factory (the external Emscripten glue
`DracoDecoderModule(config)`, which is not part of this repository) returns
a promise that resolves with the module exactly when the supplied
`instantiateWasm` override invokes its success callback; while no callback
is invoked the factory's promise never settles. -/
def factoryPromiseOutcome (env : InitEnv) : PromiseOutcome :=
  match instantiateWasm env with
  | .successCalled i => .resolved (.wasmInstance i)
  | _ => .pending

/-- Settlement of the promise returned by `initDracoDecoder` (lines
92-127): a synchronous throw when the module is not loaded rejects the
promise; on the factory branch the promise follows the factory's promise
(`.then(... resolve) .catch(reject)`); the ASM.js fallback branch resolves
immediately with the configuration object. -/
def initDracoDecoderOutcome (env : InitEnv) : PromiseOutcome :=
  if !env.localFactoryIsFunction && !env.windowModuleIsObject then
    .rejected ("DracoDecoderModule not loaded").data
  else if env.localFactoryIsFunction then
    match factoryPromiseOutcome env with
    | .resolved m => .resolved m
    | .rejected e => .rejected e
    | .pending => .pending
  else .resolved .configObject

/-- The controller state reached by the first `initDracoDecoder` call from
the initial state: promise 0 allocated and stored, one initialization
started. -/
def startedDracoState : DracoSt := ⟨1, some 0, false, none, 1, .factory, none⟩

/-- A base64 data URL carrying MIME `application/octet-stream` (the
encoding side of the transport round trip). -/
def octetStreamDataUrl (b : List Nat) : List Char :=
  ("data:application/octet-stream;base64,").data ++ base64EncodeChars b

/-! Helper lemmas about the string models. -/

theorem isPrefixOf_append_left (p l₁ l₂ : List Char) (h : p.length ≤ l₁.length) :
    p.isPrefixOf (l₁ ++ l₂) = p.isPrefixOf l₁ := by
  induction p generalizing l₁ with
  | nil => simp
  | cons x p ih =>
    cases l₁ with
    | nil => simp at h
    | cons y l₁ =>
      simp only [List.cons_append, List.isPrefixOf_cons₂]
      rw [ih l₁ (by simpa using Nat.le_of_succ_le_succ h)]

theorem mem_of_jsIncludes {s pat : List Char} (h : jsIncludes s pat = true) :
    ∀ c ∈ pat, c ∈ s := by
  induction s with
  | nil =>
    cases pat with
    | nil => intro c hc; cases hc
    | cons x xs => simp [jsIncludes, List.isPrefixOf] at h
  | cons y rest ih =>
    rw [jsIncludes, Bool.or_eq_true] at h
    intro c hc
    cases h with
    | inl hpre =>
      exact ( List.isPrefixOf_iff_prefix.mp hpre).sublist.subset hc
    | inr hrec => exact List.mem_cons_of_mem y (ih hrec c hc)

theorem jsIncludes_eq_false_of_missing {s pat : List Char} (c : Char) (hc : c ∈ pat)
    (h : ∀ x ∈ s, x ≠ c) : jsIncludes s pat = false := by
  cases hj : jsIncludes s pat with
  | false => rfl
  | true => exact absurd rfl (h c (mem_of_jsIncludes hj c hc))

theorem splitAtComma_append (P x : List Char) (hP : ',' ∉ P) :
    splitAtComma (P ++ ',' :: x) = some (P, x) := by
  induction P with
  | nil => simp [splitAtComma]
  | cons c P ih =>
    have hc : ¬ c = ',' := fun h => hP (h ▸ List.mem_cons_self c P)
    have hP2 : ',' ∉ P := fun h => hP (List.mem_cons_of_mem c h)
    simp [splitAtComma, hc, ih hP2]

theorem splitAtComma_eq_none (cs : List Char) (h : cs.contains ',' = false) :
    splitAtComma cs = none := by
  induction cs with
  | nil => rfl
  | cons c rest ih =>
    rw [List.contains_cons, Bool.or_eq_false_iff] at h
    have hc : ¬ c = ',' := by
      intro hcc
      rw [hcc] at h
      simp at h
    rw [splitAtComma, if_neg hc, ih h.2]
    rfl

/-! Helper lemmas for the base64 round trip. -/

theorem sextetChar_mem_lt : ∀ n < 64, sextetChar n ∈ base64Alphabet := by decide

theorem sextetChar_mem (n : Nat) : sextetChar n ∈ base64Alphabet := by
  by_cases h : n < 64
  · exact sextetChar_mem_lt n h
  · unfold sextetChar
    rw [List.getD_eq_getElem?_getD, List.getElem?_eq_none]
    · decide
    · have hlen : base64Alphabet.length = 64 := by decide
      omega

theorem alphabet_char_facts :
    ∀ c ∈ base64Alphabet, isB64Ws c = false ∧ ¬ c = '=' ∧ ¬ c = ',' ∧ ¬ c = '.' := by
  decide

theorem idx_sextet : ∀ n < 64, base64Index (sextetChar n) = some n := by decide

theorem enc_mem (b : List Nat) :
    ∀ c ∈ base64EncodeChars b, c ∈ base64Alphabet ∨ c = '=' := by
  induction b using base64EncodeChars.induct with
  | case1 => intro c hc; cases hc
  | case2 a =>
    intro c hc
    simp only [base64EncodeChars, List.mem_cons, List.not_mem_nil, or_false] at hc
    rcases hc with h | h | h | h <;> subst h
    · exact Or.inl (sextetChar_mem _)
    · exact Or.inl (sextetChar_mem _)
    · exact Or.inr rfl
    · exact Or.inr rfl
  | case3 a b =>
    intro c hc
    simp only [base64EncodeChars, List.mem_cons, List.not_mem_nil, or_false] at hc
    rcases hc with h | h | h | h <;> subst h
    · exact Or.inl (sextetChar_mem _)
    · exact Or.inl (sextetChar_mem _)
    · exact Or.inl (sextetChar_mem _)
    · exact Or.inr rfl
  | case4 x y z rest ih =>
    intro c hc
    simp only [base64EncodeChars, List.mem_cons] at hc
    rcases hc with h | h | h | h | h
    · exact h ▸ Or.inl (sextetChar_mem _)
    · exact h ▸ Or.inl (sextetChar_mem _)
    · exact h ▸ Or.inl (sextetChar_mem _)
    · exact h ▸ Or.inl (sextetChar_mem _)
    · exact ih c h

theorem enc_filter_eq (b : List Nat) :
    (base64EncodeChars b).filter (fun c => !isB64Ws c) = base64EncodeChars b := by
  rw [List.filter_eq_self]
  intro c hc
  rcases enc_mem b c hc with h | h
  · simp [(alphabet_char_facts c h).1]
  · subst h; decide

theorem enc_length_mod (b : List Nat) : (base64EncodeChars b).length % 4 = 0 := by
  induction b using base64EncodeChars.induct with
  | case1 => simp [base64EncodeChars]
  | case2 a => simp [base64EncodeChars]
  | case3 a b => simp [base64EncodeChars]
  | case4 x y z rest ih =>
    simp only [base64EncodeChars, List.length_cons]
    omega

theorem enc_length_ge (b : List Nat) (hb : b ≠ []) :
    2 ≤ (base64EncodeChars b).length := by
  cases b with
  | nil => exact absurd rfl hb
  | cons x t =>
    cases t with
    | nil => simp [base64EncodeChars]
    | cons y t2 =>
      cases t2 with
      | nil => simp [base64EncodeChars]
      | cons z r =>
        simp only [base64EncodeChars, List.length_cons]
        omega

theorem stripPad_append (C E : List Char) (hC4 : C.length % 4 = 0)
    (hE4 : E.length % 4 = 0) (h2 : 2 ≤ E.length) :
    stripPad (C ++ E) = C ++ stripPad E := by
  have hlen : (C ++ E).length % 4 = 0 := by
    simp only [List.length_append]
    omega
  have hEr2 : 2 ≤ E.reverse.length := by simpa using h2
  have hEr1 : 1 ≤ E.reverse.length := le_trans (by omega) hEr2
  have ht2 : (C ++ E).reverse.take 2 = E.reverse.take 2 := by
    rw [List.reverse_append, List.take_append_of_le_length hEr2]
  have ht1 : (C ++ E).reverse.take 1 = E.reverse.take 1 := by
    rw [List.reverse_append, List.take_append_of_le_length hEr1]
  have hd2 : ((C ++ E).reverse.drop 2).reverse = C ++ (E.reverse.drop 2).reverse := by
    rw [List.reverse_append, List.drop_append_of_le_length hEr2, List.reverse_append,
      List.reverse_reverse]
  have hd1 : ((C ++ E).reverse.drop 1).reverse = C ++ (E.reverse.drop 1).reverse := by
    rw [List.reverse_append, List.drop_append_of_le_length hEr1, List.reverse_append,
      List.reverse_reverse]
  unfold stripPad
  rw [if_pos hlen, if_pos hE4, ht2, ht1]
  by_cases hp2 : E.reverse.take 2 = ['=', '=']
  · rw [if_pos hp2, if_pos hp2, hd2]
  · rw [if_neg hp2, if_neg hp2]
    by_cases hp1 : E.reverse.take 1 = ['=']
    · rw [if_pos hp1, if_pos hp1, hd1]
    · rw [if_neg hp1, if_neg hp1]

theorem base64IndexAll_append (l₁ l₂ : List Char) (a b : List Nat)
    (h₁ : base64IndexAll l₁ = some a) (h₂ : base64IndexAll l₂ = some b) :
    base64IndexAll (l₁ ++ l₂) = some (a ++ b) := by
  induction l₁ generalizing a with
  | nil =>
    simp only [base64IndexAll] at h₁
    cases h₁
    simpa using h₂
  | cons c rest ih =>
    rw [base64IndexAll] at h₁
    rw [List.cons_append, base64IndexAll]
    cases hic : base64Index c with
    | none => rw [hic] at h₁; simp at h₁
    | some i =>
      rw [hic] at h₁
      cases hir : base64IndexAll rest with
      | none => rw [hir] at h₁; simp at h₁
      | some t =>
        rw [hir] at h₁
        simp only [Option.some.injEq] at h₁
        rw [ih t hir]
        simp [← h₁]

theorem enc_pipeline (b : List Nat) (hb : ∀ x ∈ b, x < 256) :
    ∃ S, base64IndexAll (stripPad (base64EncodeChars b)) = some S ∧
      decodeSextets S = some b := by
  induction b using base64EncodeChars.induct with
  | case1 => exact ⟨[], by decide, by decide⟩
  | case2 a =>
    have ha : a < 256 := hb a (by simp)
    refine ⟨[a / 4, a % 4 * 16], ?_, ?_⟩
    · have hsp : stripPad (base64EncodeChars [a]) =
          [sextetChar (a / 4), sextetChar (a % 4 * 16)] := by
        simp [base64EncodeChars, stripPad]
      rw [hsp]
      simp [base64IndexAll, idx_sextet (a / 4) (by omega),
        idx_sextet (a % 4 * 16) (by omega)]
    · simp only [decodeSextets, Option.some.injEq, List.cons.injEq, and_true]
      omega
  | case3 a b =>
    have ha : a < 256 := hb a (by simp)
    have hb2 : b < 256 := hb b (by simp)
    refine ⟨[a / 4, a % 4 * 16 + b / 16, b % 16 * 4], ?_, ?_⟩
    · have h3 := (alphabet_char_facts _ (sextetChar_mem (b % 16 * 4))).2.1
      have hsp : stripPad (base64EncodeChars [a, b]) =
          [sextetChar (a / 4), sextetChar (a % 4 * 16 + b / 16),
            sextetChar (b % 16 * 4)] := by
        simp [base64EncodeChars, stripPad, h3]
      rw [hsp]
      simp [base64IndexAll, idx_sextet (a / 4) (by omega),
        idx_sextet (a % 4 * 16 + b / 16) (by omega), idx_sextet (b % 16 * 4) (by omega)]
    · simp only [decodeSextets, Option.some.injEq, List.cons.injEq, and_true]
      omega
  | case4 x y z rest ih =>
    have hx : x < 256 := hb x (by simp)
    have hy : y < 256 := hb y (by simp)
    have hz : z < 256 := hb z (by simp)
    have hrest : ∀ v ∈ rest, v < 256 := fun v hv => hb v (by simp [hv])
    obtain ⟨S, hS1, hS2⟩ := ih hrest
    by_cases hre : rest = []
    · subst hre
      refine ⟨[x / 4, x % 4 * 16 + y / 16, y % 16 * 4 + z / 64, z % 64], ?_, ?_⟩
      · have h3 := (alphabet_char_facts _ (sextetChar_mem (y % 16 * 4 + z / 64))).2.1
        have h4 := (alphabet_char_facts _ (sextetChar_mem (z % 64))).2.1
        have hsp : stripPad (base64EncodeChars [x, y, z]) =
            base64EncodeChars [x, y, z] := by
          simp [base64EncodeChars, stripPad, h3, h4]
        rw [hsp]
        simp [base64EncodeChars, base64IndexAll, idx_sextet (x / 4) (by omega),
          idx_sextet (x % 4 * 16 + y / 16) (by omega),
          idx_sextet (y % 16 * 4 + z / 64) (by omega), idx_sextet (z % 64) (by omega)]
      · simp only [decodeSextets, Option.map_some', Option.some.injEq, List.cons.injEq,
          and_true]
        refine ⟨by omega, by omega, by omega⟩
    · have hE4 := enc_length_mod rest
      have hE2 := enc_length_ge rest hre
      have henc : base64EncodeChars (x :: y :: z :: rest) =
          [sextetChar (x / 4), sextetChar (x % 4 * 16 + y / 16),
            sextetChar (y % 16 * 4 + z / 64), sextetChar (z % 64)] ++
            base64EncodeChars rest := by
        simp [base64EncodeChars]
      have hsp := stripPad_append
        [sextetChar (x / 4), sextetChar (x % 4 * 16 + y / 16),
          sextetChar (y % 16 * 4 + z / 64), sextetChar (z % 64)]
        (base64EncodeChars rest) (by simp) hE4 hE2
      have hC : base64IndexAll
          [sextetChar (x / 4), sextetChar (x % 4 * 16 + y / 16),
            sextetChar (y % 16 * 4 + z / 64), sextetChar (z % 64)] =
          some [x / 4, x % 4 * 16 + y / 16, y % 16 * 4 + z / 64, z % 64] := by
        simp [base64IndexAll, idx_sextet (x / 4) (by omega),
          idx_sextet (x % 4 * 16 + y / 16) (by omega),
          idx_sextet (y % 16 * 4 + z / 64) (by omega), idx_sextet (z % 64) (by omega)]
      refine ⟨[x / 4, x % 4 * 16 + y / 16, y % 16 * 4 + z / 64, z % 64] ++ S, ?_, ?_⟩
      · rw [henc, hsp]
        exact base64IndexAll_append _ _ _ _ hC hS1
      · simp only [List.cons_append, List.nil_append, List.append_eq, decodeSextets, hS2,
          Option.map_some', Option.some.injEq, List.cons.injEq, and_true]
        omega

theorem atob_base64Encode (b : List Nat) (hb : ∀ x ∈ b, x < 256) :
    atobBytes (base64EncodeChars b) = some b := by
  obtain ⟨S, hS1, hS2⟩ := enc_pipeline b hb
  unfold atobBytes
  rw [enc_filter_eq, hS1]
  exact hS2

/-! Helper lemmas about the legacy-request (XHR) model. -/

theorem xhrOpen_blocked_of_draco (st : XHRState) (m u : List Char)
    (h : isDracoUrl u = true) :
    xhrOpen st m u =
      { st with dracoBlocked := true, origOpenCalls := st.origOpenCalls ++ [(m, u)] } := by
  unfold xhrOpen
  rw [if_pos h]

theorem xhrOpen_of_not_draco (st : XHRState) (m u : List Char)
    (h : isDracoUrl u = false) :
    xhrOpen st m u = { st with origOpenCalls := st.origOpenCalls ++ [(m, u)] } := by
  unfold xhrOpen
  rw [h]
  rfl

theorem runXHR_blocked (ops : List XHROp) (st : XHRState)
    (h : st.dracoBlocked = true) :
    (runXHR st ops).dracoBlocked = true ∧
      (runXHR st ops).origSendCalls = st.origSendCalls ∧
      (runXHR st ops).scheduledErrors = st.scheduledErrors + countSends ops := by
  induction ops generalizing st with
  | nil => simp [runXHR, countSends]; exact h
  | cons op rest ih =>
    cases op with
    | opn m u =>
      have hstep : (xhrOpen st m u).dracoBlocked = true ∧
          (xhrOpen st m u).origSendCalls = st.origSendCalls ∧
          (xhrOpen st m u).scheduledErrors = st.scheduledErrors := by
        unfold xhrOpen
        by_cases hd : isDracoUrl u = true
        · rw [if_pos hd]; exact ⟨rfl, rfl, rfl⟩
        · rw [if_neg hd]; exact ⟨h, rfl, rfl⟩
      obtain ⟨h1, h2, h3⟩ := ih (xhrOpen st m u) hstep.1
      refine ⟨h1, ?_, ?_⟩
      · rw [show runXHR st (XHROp.opn m u :: rest) = runXHR (xhrOpen st m u) rest from rfl,
          h2, hstep.2.1]
      · rw [show runXHR st (XHROp.opn m u :: rest) = runXHR (xhrOpen st m u) rest from rfl,
          h3, hstep.2.2]
        rfl
    | send =>
      have hstep : xhrSend st = { st with scheduledErrors := st.scheduledErrors + 1 } := by
        unfold xhrSend
        rw [if_pos h]
      obtain ⟨h1, h2, h3⟩ := ih (xhrSend st) (by rw [hstep]; exact h)
      refine ⟨h1, ?_, ?_⟩
      · rw [show runXHR st (XHROp.send :: rest) = runXHR (xhrSend st) rest from rfl, h2,
          hstep]
      · rw [show runXHR st (XHROp.send :: rest) = runXHR (xhrSend st) rest from rfl, h3,
          hstep]
        show st.scheduledErrors + 1 + countSends rest = st.scheduledErrors +
          countSends (XHROp.send :: rest)
        rw [show countSends (XHROp.send :: rest) = countSends rest + 1 from rfl]
        omega

/-! Helper lemmas about the initialization controller model. -/

theorem dracoInitResolve_preserves (st : DracoSt) (m : Nat) :
    (dracoInitResolve st m).initPromise = st.initPromise ∧
      (dracoInitResolve st m).factoryStarts = st.factoryStarts ∧
      (dracoInitResolve st m).nextId = st.nextId ∧
      (dracoInitResolve st m).windowFactorySlot = st.windowFactorySlot := by
  unfold dracoInitResolve
  split <;> exact ⟨rfl, rfl, rfl, rfl⟩

theorem containerHandlerOpen_preserves (st : DracoSt) :
    (containerHandlerOpen st).initPromise = st.initPromise ∧
      (containerHandlerOpen st).factoryStarts = st.factoryStarts ∧
      (containerHandlerOpen st).nextId = st.nextId := by
  unfold containerHandlerOpen
  split
  · split <;> exact ⟨rfl, rfl, rfl⟩
  · exact ⟨rfl, rfl, rfl⟩

theorem runD_started (evs : List DEvent) (st : DracoSt) (p : Nat)
    (h : st.initPromise = some p) :
    (runD st evs).initPromise = some p ∧
      (runD st evs).factoryStarts = st.factoryStarts ∧
      callReturns st evs = List.replicate (countCalls evs) p := by
  induction evs generalizing st with
  | nil => exact ⟨h, rfl, rfl⟩
  | cons e rest ih =>
    cases e with
    | call =>
      have hcall : initDracoDecoder st = (st, p) := by
        unfold initDracoDecoder
        rw [h]
      obtain ⟨h1, h2, h3⟩ := ih st h
      refine ⟨?_, ?_, ?_⟩
      · rw [show runD st (DEvent.call :: rest) = runD (initDracoDecoder st).1 rest from rfl,
          hcall]
        exact h1
      · rw [show runD st (DEvent.call :: rest) = runD (initDracoDecoder st).1 rest from rfl,
          hcall]
        exact h2
      · rw [show callReturns st (DEvent.call :: rest) =
            (initDracoDecoder st).2 :: callReturns (initDracoDecoder st).1 rest from rfl,
          hcall]
        rw [show countCalls (DEvent.call :: rest) = countCalls rest + 1 from rfl,
          List.replicate_succ]
        rw [h3]
    | resolveOk m =>
      have hpres := dracoInitResolve_preserves st m
      obtain ⟨h1, h2, h3⟩ := ih (dracoInitResolve st m) (hpres.1.trans h)
      refine ⟨h1, ?_, ?_⟩
      · rw [show runD st (DEvent.resolveOk m :: rest) =
            runD (dracoInitResolve st m) rest from rfl, h2, hpres.2.1]
      · rw [show callReturns st (DEvent.resolveOk m :: rest) =
            callReturns (dracoInitResolve st m) rest from rfl, h3]
        rfl
    | containerOpen =>
      have hpres := containerHandlerOpen_preserves st
      obtain ⟨h1, h2, h3⟩ := ih (containerHandlerOpen st) (hpres.1.trans h)
      refine ⟨h1, ?_, ?_⟩
      · rw [show runD st (DEvent.containerOpen :: rest) =
            runD (containerHandlerOpen st) rest from rfl, h2, hpres.2.1]
      · rw [show callReturns st (DEvent.containerOpen :: rest) =
            callReturns (containerHandlerOpen st) rest from rfl, h3]
        rfl

theorem dracoInitResolve_initial (m : Nat) :
    dracoInitResolve initialDracoState m = initialDracoState := by
  unfold dracoInitResolve
  rw [if_neg (by simp [initialDracoState])]

theorem containerHandlerOpen_initial :
    containerHandlerOpen initialDracoState = initialDracoState := by decide

theorem initDracoDecoder_initial :
    initDracoDecoder initialDracoState = (startedDracoState, 0) := by decide

theorem runD_initial (evs : List DEvent) :
    (runD initialDracoState evs).factoryStarts ≤ 1 ∧
      ∀ q ∈ callReturns initialDracoState evs, q = 0 := by
  induction evs with
  | nil =>
    refine ⟨by decide, ?_⟩
    intro q hq
    cases hq
  | cons e rest ih =>
    cases e with
    | call =>
      obtain ⟨h1, h2, h3⟩ := runD_started rest startedDracoState 0 rfl
      constructor
      · rw [show runD initialDracoState (DEvent.call :: rest) =
            runD (initDracoDecoder initialDracoState).1 rest from rfl,
          initDracoDecoder_initial, h2]
        decide
      · intro q hq
        rw [show callReturns initialDracoState (DEvent.call :: rest) =
            (initDracoDecoder initialDracoState).2 ::
              callReturns (initDracoDecoder initialDracoState).1 rest from rfl,
          initDracoDecoder_initial] at hq
        rcases List.mem_cons.mp hq with h | h
        · exact h
        · rw [h3] at h
          exact List.eq_of_mem_replicate h
    | resolveOk m =>
      refine ⟨?_, ?_⟩
      · rw [show runD initialDracoState (DEvent.resolveOk m :: rest) =
            runD (dracoInitResolve initialDracoState m) rest from rfl,
          dracoInitResolve_initial]
        exact ih.1
      · intro q hq
        rw [show callReturns initialDracoState (DEvent.resolveOk m :: rest) =
            callReturns (dracoInitResolve initialDracoState m) rest from rfl,
          dracoInitResolve_initial] at hq
        exact ih.2 q hq
    | containerOpen =>
      refine ⟨?_, ?_⟩
      · rw [show runD initialDracoState (DEvent.containerOpen :: rest) =
            runD (containerHandlerOpen initialDracoState) rest from rfl,
          containerHandlerOpen_initial]
        exact ih.1
      · intro q hq
        rw [show callReturns initialDracoState (DEvent.containerOpen :: rest) =
            callReturns (containerHandlerOpen initialDracoState) rest from rfl,
          containerHandlerOpen_initial] at hq
        exact ih.2 q hq

/-! Claim theorems. -/

/-- C1: at most one underlying initialization is ever started by any
sequence of `initDracoDecoder` calls; a call made while the promise exists
returns that identical promise and changes nothing, and every call of any
event sequence from the initial state (including calls after readiness)
hands back the same promise identity without re-invoking the factory. -/
theorem initDracoDecoder_coalesces :
    (∀ st p, st.initPromise = some p → initDracoDecoder st = (st, p)) ∧
    ∀ evs : List DEvent, (runD initialDracoState evs).factoryStarts ≤ 1 ∧
      ∀ q r, q ∈ callReturns initialDracoState evs →
        r ∈ callReturns initialDracoState evs → q = r := by
  refine ⟨fun st p h => ?_, fun evs => ?_⟩
  · unfold initDracoDecoder
    rw [h]
  · obtain ⟨h1, h2⟩ := runD_initial evs
    exact ⟨h1, fun q r hq hr => (h2 q hq).trans (h2 r hr).symm⟩

/-- Witness for C1: a second call while the promise exists returns the
stored promise unchanged, and a trace with three calls, a resolution in
between, starts at most one initialization. -/
theorem initDracoDecoder_coalesces_witness :
    initDracoDecoder startedDracoState = (startedDracoState, 0) ∧
      (runD initialDracoState
        [DEvent.call, DEvent.call, DEvent.resolveOk 7, DEvent.call]).factoryStarts ≤ 1 :=
  ⟨initDracoDecoder_coalesces.1 startedDracoState 0 rfl,
    (initDracoDecoder_coalesces.2
      [DEvent.call, DEvent.call, DEvent.resolveOk 7, DEvent.call]).1⟩

/-- C4 counterexample: after a call, a successful resolution with module 5
and one patched container-handler open, the factory slot
`window.DracoDecoderModule` holds the initialized instance — the system
does overwrite the factory slot, at line 417 of the patch. -/
theorem factorySlot_overwritten_counterexample :
    (runD initialDracoState
      [DEvent.call, DEvent.resolveOk 5, DEvent.containerOpen]).windowFactorySlot =
        GlobalVal.inst 5 ∧
      GlobalVal.inst 5 ≠ GlobalVal.factory := by decide

/-- C4 (amended): the initialization operation itself never writes the
factory slot — a call leaves it unchanged and the resolution handler
publishes the instance only at `window.__DRACO_INITIALIZED_MODULE__` —
but the patched `pc.ContainerHandler.prototype.open` does overwrite
`window.DracoDecoderModule` with the initialized instance once ready. -/
theorem factorySlot_discipline :
    (∀ st, ((initDracoDecoder st).1).windowFactorySlot = st.windowFactorySlot) ∧
    (∀ st m, (dracoInitResolve st m).windowFactorySlot = st.windowFactorySlot ∧
      (st.initPromise.isSome = true → st.isReady = false →
        (dracoInitResolve st m).windowInstanceSlot = some m)) ∧
    (∀ st m, st.isReady = true → st.decoderModule = some m →
      (containerHandlerOpen st).windowFactorySlot = GlobalVal.inst m) := by
  refine ⟨fun st => ?_, fun st m => ⟨(dracoInitResolve_preserves st m).2.2.2, ?_⟩,
    fun st m h1 h2 => ?_⟩
  · unfold initDracoDecoder
    cases st.initPromise <;> rfl
  · intro hp hr
    unfold dracoInitResolve
    rw [if_pos (by rw [hp, hr]; rfl)]
  · unfold containerHandlerOpen
    rw [h2]
    simp [h1]

/-- Witness for C4 (amended): concrete ready state, container open writes
the instance into the factory slot; the resolution handler publishes the
instance slot. -/
theorem factorySlot_discipline_witness :
    (containerHandlerOpen ⟨1, some 0, true, some 5, 1, GlobalVal.factory,
      some 5⟩).windowFactorySlot = GlobalVal.inst 5 ∧
      (dracoInitResolve startedDracoState 9).windowInstanceSlot = some 9 :=
  ⟨factorySlot_discipline.2.2 _ 5 rfl rfl,
    (factorySlot_discipline.2.1 startedDracoState 9).2 rfl rfl⟩

/-- C3 counterexample: with the factory loaded and the binary embedded, a
rejected WebAssembly instantiation does not reject the initialization
promise — the promise stays pending and the error is only logged by the
catch handler of `instantiateWasm` (line 64-66). -/
theorem initFailure_not_propagated_counterexample :
    initDracoDecoderOutcome ⟨true, true, true, WasmResult.err ("boom").data⟩ ≠
      PromiseOutcome.rejected ("boom").data ∧
      initDracoDecoderOutcome ⟨true, true, true, WasmResult.err ("boom").data⟩ =
        PromiseOutcome.pending ∧
      instantiateWasm ⟨true, true, true, WasmResult.err ("boom").data⟩ =
        InstantiateWasmEffect.errorLoggedOnly ("boom").data := by decide

/-- C3 (amended): when the binary instantiation rejects, `instantiateWasm`
only logs the error and never invokes the success callback, so the
initialization promise never settles (it stays pending instead of
rejecting); the promise rejects only on the synchronous module-not-loaded
error. -/
theorem initFailure_swallowed (env : InitEnv) (e : List Char)
    (hf : env.localFactoryIsFunction = true) (hbin : env.wasmBinaryPresent = true)
    (hw : env.wasmInstantiation = WasmResult.err e) :
    instantiateWasm env = InstantiateWasmEffect.errorLoggedOnly e ∧
      initDracoDecoderOutcome env = PromiseOutcome.pending ∧
      ∀ env2 : InitEnv, env2.localFactoryIsFunction = false →
        env2.windowModuleIsObject = false →
        initDracoDecoderOutcome env2 =
          PromiseOutcome.rejected ("DracoDecoderModule not loaded").data := by
  have h1 : instantiateWasm env = InstantiateWasmEffect.errorLoggedOnly e := by
    unfold instantiateWasm
    rw [hw, hbin]
    rfl
  refine ⟨h1, ?_, fun env2 hf2 hm2 => ?_⟩
  · unfold initDracoDecoderOutcome factoryPromiseOutcome
    rw [h1, hf]
    rfl
  · unfold initDracoDecoderOutcome
    rw [hf2, hm2]
    rfl

/-- Witness for C3 (amended): the concrete failing environment. -/
theorem initFailure_swallowed_witness :
    instantiateWasm ⟨true, true, true, WasmResult.err ("oops").data⟩ =
      InstantiateWasmEffect.errorLoggedOnly ("oops").data ∧
      initDracoDecoderOutcome ⟨true, true, true, WasmResult.err ("oops").data⟩ =
        PromiseOutcome.pending :=
  ⟨(initFailure_swallowed _ _ rfl rfl rfl).1, (initFailure_swallowed _ _ rfl rfl rfl).2.1⟩

/-- C5 counterexample: `textures/ground.png` matches no codec-file
fragment, yet on an instance that was earlier opened for a codec file and
then re-opened for this identifier, the patched send does not delegate to
the original send (zero real sends, one scheduled error trigger) — not
identical to the unpatched behavior. -/
theorem passThrough_counterexample :
    isDracoUrl ("textures/ground.png").data = false ∧
      (xhrSend (xhrOpen (xhrOpen initialXHR ("GET").data ("preload/draco.js").data)
        ("GET").data ("textures/ground.png").data)).origSendCalls = 0 ∧
      (xhrSend (xhrOpen (xhrOpen initialXHR ("GET").data ("preload/draco.js").data)
        ("GET").data ("textures/ground.png").data)).scheduledErrors = 1 := by decide

/-- C5 (amended): for every identifier not matching a codec-file rule, the
patched fetch delegates to the original fetch with exactly the original
arguments, and the patched XHR open delegates to the original open with
the original arguments leaving the instance state otherwise unchanged; the
patched XHR send delegates to the original send provided the instance's
blocking flag is unset — the flag survives re-opening, so an instance once
opened for a codec file keeps suppressing sends. -/
theorem passThrough_law :
    (∀ env u rest, isDracoUrl u = false →
      patchedFetch env (UrlArg.str u) rest = FetchAction.delegate (UrlArg.str u) rest) ∧
    (∀ env o rest, patchedFetch env (UrlArg.other o) rest =
      FetchAction.delegate (UrlArg.other o) rest) ∧
    (∀ st m u, isDracoUrl u = false →
      xhrOpen st m u = { st with origOpenCalls := st.origOpenCalls ++ [(m, u)] }) ∧
    (∀ st, st.dracoBlocked = false →
      xhrSend st = { st with origSendCalls := st.origSendCalls + 1 }) := by
  refine ⟨fun env u rest h => ?_, fun env o rest => rfl, fun st m u h => ?_,
    fun st h => ?_⟩
  · unfold patchedFetch
    simp [h]
  · exact xhrOpen_of_not_draco st m u h
  · unfold xhrSend
    rw [h]
    rfl

/-- Witness for C5 (amended): concrete non-matching identifiers pass
through on fetch, open and send. -/
theorem passThrough_law_witness :
    patchedFetch ⟨none, none, none, none⟩ (UrlArg.str ("config.json").data) [3, 4] =
      FetchAction.delegate (UrlArg.str ("config.json").data) [3, 4] ∧
      xhrOpen initialXHR ("GET").data ("config.json").data =
        { initialXHR with
            origOpenCalls := initialXHR.origOpenCalls ++
              [(("GET").data, ("config.json").data)] } ∧
      xhrSend initialXHR =
        { initialXHR with origSendCalls := initialXHR.origSendCalls + 1 } :=
  ⟨passThrough_law.1 _ _ _ (by decide), passThrough_law.2.2.1 _ _ _ (by decide),
    passThrough_law.2.2.2 _ rfl⟩

/-- C6: once an XHR instance was opened with a codec-file identifier, no
subsequent interaction sequence ever delegates to the original send (zero
real network requests), and every send in it schedules the asynchronous
error trigger instead of any success path. -/
theorem xhrBlocked_never_sends (st : XHRState) (method url : List Char)
    (ops : List XHROp) (h : isDracoUrl url = true) :
    (runXHR (xhrOpen st method url) ops).origSendCalls = st.origSendCalls ∧
      (runXHR (xhrOpen st method url) ops).scheduledErrors =
        st.scheduledErrors + countSends ops := by
  have hb : (xhrOpen st method url).dracoBlocked = true := by
    rw [xhrOpen_blocked_of_draco st method url h]
  obtain ⟨h1, h2, h3⟩ := runXHR_blocked ops (xhrOpen st method url) hb
  refine ⟨?_, ?_⟩
  · rw [h2, xhrOpen_blocked_of_draco st method url h]
  · rw [h3, xhrOpen_blocked_of_draco st method url h]

/-- Witness for C6: after opening a codec-file url, two sends delegate
nothing and schedule two error triggers. -/
theorem xhrBlocked_never_sends_witness :
    (runXHR (xhrOpen initialXHR ("GET").data ("files/draco.wasm.js").data)
      [XHROp.send, XHROp.send]).origSendCalls = 0 ∧
      (runXHR (xhrOpen initialXHR ("GET").data ("files/draco.wasm.js").data)
        [XHROp.send, XHROp.send]).scheduledErrors =
        0 + countSends [XHROp.send, XHROp.send] :=
  xhrBlocked_never_sends initialXHR _ _ _ (by decide)

/-- C10: the blocking flag set by a codec-file open is never cleared: after
any further interactions and a re-open with a non-matching identifier, the
flag is still set and the next send is suppressed (no original send, one
more scheduled error trigger). -/
theorem xhrBlocked_flag_sticky (st : XHRState) (m u : List Char)
    (ops : List XHROp) (m2 u2 : List Char) (h : isDracoUrl u = true)
    (h2 : isDracoUrl u2 = false) :
    (xhrOpen (runXHR (xhrOpen st m u) ops) m2 u2).dracoBlocked = true ∧
      (xhrSend (xhrOpen (runXHR (xhrOpen st m u) ops) m2 u2)).origSendCalls =
        (xhrOpen (runXHR (xhrOpen st m u) ops) m2 u2).origSendCalls ∧
      (xhrSend (xhrOpen (runXHR (xhrOpen st m u) ops) m2 u2)).scheduledErrors =
        (xhrOpen (runXHR (xhrOpen st m u) ops) m2 u2).scheduledErrors + 1 := by
  have hb : (xhrOpen st m u).dracoBlocked = true := by
    rw [xhrOpen_blocked_of_draco st m u h]
  have hrun : (runXHR (xhrOpen st m u) ops).dracoBlocked = true :=
    (runXHR_blocked ops (xhrOpen st m u) hb).1
  have hopen : (xhrOpen (runXHR (xhrOpen st m u) ops) m2 u2).dracoBlocked = true := by
    rw [xhrOpen_of_not_draco _ m2 u2 h2]
    exact hrun
  refine ⟨hopen, ?_, ?_⟩
  · unfold xhrSend
    rw [hopen]
    rfl
  · unfold xhrSend
    rw [hopen]
    rfl

/-- Witness for C10: concrete re-open with a non-matching identifier still
suppresses the send. -/
theorem xhrBlocked_flag_sticky_witness :
    (xhrOpen (runXHR (xhrOpen initialXHR ("GET").data ("lib/draco.js").data) [])
      ("GET").data ("model.glb").data).dracoBlocked = true ∧
      (xhrSend (xhrOpen (runXHR (xhrOpen initialXHR ("GET").data
        ("lib/draco.js").data) []) ("GET").data ("model.glb").data)).origSendCalls =
        (xhrOpen (runXHR (xhrOpen initialXHR ("GET").data ("lib/draco.js").data) [])
          ("GET").data ("model.glb").data).origSendCalls ∧
      (xhrSend (xhrOpen (runXHR (xhrOpen initialXHR ("GET").data
        ("lib/draco.js").data) []) ("GET").data ("model.glb").data)).scheduledErrors =
        (xhrOpen (runXHR (xhrOpen initialXHR ("GET").data ("lib/draco.js").data) [])
          ("GET").data ("model.glb").data).scheduledErrors + 1 :=
  xhrBlocked_flag_sticky initialXHR _ _ [] _ _ (by decide) (by decide)

/-- C7: a worker-script string containing the codec module reference,
handed to the patched Blob constructor with type `application/javascript`,
is replaced by the locate-file shim, then the glue segment, then the
original body, in that exact order — the original body appears unmodified
as the final suffix of a pure string concatenation. -/
theorem workerInjection_order (env : DracoEnv) (u d code : List Char)
    (hu : env.wasmBlobUrl = some u) (hd : env.decoderCode = some d)
    (hc : jsIncludes code ("DracoDecoderModule").data = true) :
    patchedBlob env [BlobPart.str code] (some ("application/javascript").data) =
      [BlobPart.str (locateFileShim u ++ glueSegment d ++ originalHeader ++ code)] := by
  unfold patchedBlob injectedWorkerCode
  rw [hu, hd]
  simp [hc]

/-- Witness for C7: concrete environment and worker source. -/
theorem workerInjection_order_witness :
    patchedBlob ⟨some ("blob:wasm-url").data, none, none,
        some ("var DracoDecoderModule = factory;").data⟩
      [BlobPart.str ("onmessage = DracoDecoderModule;").data]
      (some ("application/javascript").data) =
      [BlobPart.str (locateFileShim ("blob:wasm-url").data ++
        glueSegment ("var DracoDecoderModule = factory;").data ++ originalHeader ++
        ("onmessage = DracoDecoderModule;").data)] :=
  workerInjection_order _ _ _ _ rfl rfl (by decide)

/-- C2 counterexample: on the percent-encoded scenario input, the
base64 decode (`window.atob`) throws, so the patched get never invokes the
callback with the parsed object — the claimed `cb(null, \x7ba: 1\x7d)` does not
happen. -/
theorem dataUrl_json_scenario_counterexample :
    httpGet ("data:application/json,%7B%22a%22%3A1%7D").data emptyOptions =
      GetResult.thrown ("InvalidCharacterError").data ∧
      httpGet ("data:application/json,%7B%22a%22%3A1%7D").data emptyOptions ≠
        GetResult.callback none
          (HttpData.json (Json.obj [(("a").data, Json.num 1)])) := by
  refine ⟨rfl, fun h => ?_⟩
  rw [(rfl : httpGet ("data:application/json,%7B%22a%22%3A1%7D").data emptyOptions =
    GetResult.thrown ("InvalidCharacterError").data)] at h
  exact GetResult.noConfusion h

/-- C2 (amended): the payload of the data URL must be base64; with the
base64 payload `eyJhIjoxfQ==` (the encoding of the scenario's JSON text)
the patched get decodes it, JSON-parses it, and invokes the callback's
success channel with the structured object. -/
theorem dataUrl_json_scenario_base64 :
    httpGet ("data:application/json;base64,eyJhIjoxfQ==").data emptyOptions =
      GetResult.callback none
        (HttpData.json (Json.obj [(("a").data, Json.num 1)])) := rfl

/-- C9: an identifier that matches no codec-file rule and is not a
well-formed data URL (missing the `data:` scheme or the mandatory comma)
makes the patched get report an invalid-format error through the
callback's error argument with a null payload — no exception escapes. -/
theorem invalid_url_error_channel (url : List Char) (options : GetOptions)
    (h1 : isDracoUrl url = false) (h2 : isWellFormedDataURL url = false) :
    ∃ msg, httpGet url options = GetResult.callback (some msg) HttpData.null := by
  unfold isWellFormedDataURL at h2
  rw [Bool.and_eq_false_iff] at h2
  by_cases hp : ("data:").data.isPrefixOf url = true
  · have hc : url.contains ',' = false := by
      rcases h2 with h | h
      · rw [hp] at h
        cases h
      · exact h
    refine ⟨("Invalid data URL").data, ?_⟩
    unfold httpGet
    rw [h1, hp]
    simp [splitAtComma_eq_none url hc]
  · refine ⟨("Invalid data URL format").data, ?_⟩
    have hpf : ("data:").data.isPrefixOf url = false := by
      cases hx : ("data:").data.isPrefixOf url
      · rfl
      · exact absurd hx hp
    unfold httpGet
    rw [h1, hpf]
    rfl

/-- Witness for C9: the spec's scenario input `not-a-data-url`. -/
theorem invalid_url_error_channel_witness :
    ∃ msg, httpGet ("not-a-data-url").data emptyOptions =
      GetResult.callback (some msg) HttpData.null :=
  invalid_url_error_channel ("not-a-data-url").data emptyOptions (by decide) (by decide)

/-- C8: round trip — encoding any byte sequence as a base64 data URL with
MIME `application/octet-stream` and passing it to the patched get delivers,
through the callback's success argument, a byte buffer equal to the
original bytes. -/
theorem octetStream_roundTrip (b : List Nat) (hb : ∀ x ∈ b, x < 256) :
    httpGet (octetStreamDataUrl b) emptyOptions =
      GetResult.callback none (HttpData.buffer b) := by
  have hdotE : ∀ c ∈ base64EncodeChars b, ¬ c = '.' := by
    intro c hc
    rcases enc_mem b c hc with h | h
    · exact (alphabet_char_facts c h).2.2.2
    · subst h
      decide
  have hdot : ∀ x ∈ octetStreamDataUrl b, x ≠ '.' := by
    intro x hx
    rcases List.mem_append.mp hx with h | h
    · have hP : ∀ y ∈ ("data:application/octet-stream;base64,").data, ¬ y = '.' := by
        decide
      exact hP x h
    · exact hdotE x h
  have h1 : jsIncludes (octetStreamDataUrl b) (("draco.wasm.wasm").data) = false :=
    jsIncludes_eq_false_of_missing '.' (by decide) hdot
  have h2 : jsIncludes (octetStreamDataUrl b) (("draco.wasm.js").data) = false :=
    jsIncludes_eq_false_of_missing '.' (by decide) hdot
  have h3 : jsIncludes (octetStreamDataUrl b) (("draco.js").data) = false :=
    jsIncludes_eq_false_of_missing '.' (by decide) hdot
  have hDraco : isDracoUrl (octetStreamDataUrl b) = false := by
    unfold isDracoUrl
    rw [h1, h2, h3]
    rfl
  have hpre : (("data:").data.isPrefixOf (octetStreamDataUrl b)) = true := by
    unfold octetStreamDataUrl
    rw [isPrefixOf_append_left (("data:").data)
      (("data:application/octet-stream;base64,").data) (base64EncodeChars b) (by decide)]
    decide
  have hsplit : splitAtComma (octetStreamDataUrl b) =
      some ((("data:application/octet-stream;base64").data), base64EncodeChars b) := by
    unfold octetStreamDataUrl
    rw [show ("data:application/octet-stream;base64,").data =
        ("data:application/octet-stream;base64").data ++ [','] from by decide,
      List.append_assoc, List.singleton_append]
    exact splitAtComma_append _ _ (by decide)
  have hatob : atobBytes (base64EncodeChars b) = some b := atob_base64Encode b hb
  have hjson :
      (("data:application/json").data.isPrefixOf (octetStreamDataUrl b)) = false := by
    unfold octetStreamDataUrl
    rw [isPrefixOf_append_left (("data:application/json").data)
      (("data:application/octet-stream;base64,").data) (base64EncodeChars b) (by decide)]
    decide
  have htext1 : (("data:text/plain").data.isPrefixOf (octetStreamDataUrl b)) = false := by
    unfold octetStreamDataUrl
    rw [isPrefixOf_append_left (("data:text/plain").data)
      (("data:application/octet-stream;base64,").data) (base64EncodeChars b) (by decide)]
    decide
  have htext2 :
      (("data:text/javascript").data.isPrefixOf (octetStreamDataUrl b)) = false := by
    unfold octetStreamDataUrl
    rw [isPrefixOf_append_left (("data:text/javascript").data)
      (("data:application/octet-stream;base64,").data) (base64EncodeChars b) (by decide)]
    decide
  have himg : (("data:image/").data.isPrefixOf (octetStreamDataUrl b)) = false := by
    unfold octetStreamDataUrl
    rw [isPrefixOf_append_left (("data:image/").data)
      (("data:application/octet-stream;base64,").data) (base64EncodeChars b) (by decide)]
    decide
  unfold httpGet
  rw [hDraco, hpre, hsplit]
  simp [hatob, hjson, htext1, htext2, himg, emptyOptions]

/-- Witness for C8: the concrete byte sequence 0, 255, 64 survives the
round trip. -/
theorem octetStream_roundTrip_witness :
    httpGet (octetStreamDataUrl [0, 255, 64]) emptyOptions =
      GetResult.callback none (HttpData.buffer [0, 255, 64]) :=
  octetStream_roundTrip [0, 255, 64] (by decide)
